import Mathlib

/-!
Verification of the PDV SaaS backend (multi-tenant point-of-sale server).

A shallow embedding of the server's route handlers: JavaScript numbers are
modelled as `Int`, ISO timestamp strings as `String` (ISO-8601 UTC strings of a
fixed format compare lexicographically exactly as their instants compare, and
the server itself compares `createdAt` strings with `<=` / `startsWith`), and
absent JSON fields as `Option`.  JavaScript truthiness on string fields
(`if (x)`) is modelled by `truthy`: absent or empty means falsy.
-/

namespace PDV

/-- A product record as stored in `products.json`.  The numeric fields of the
JavaScript objects are modelled as `Int`; `lowStockAlert` may be absent. -/
structure Product where
  id : Int
  tenantId : Int
  barcode : String
  name : String
  price : Int
  cost : Int
  stock : Int
  lowStockAlert : Option Int
  createdAt : String
  updatedAt : String
deriving Repr, DecidableEq

/-- One line item of a sale request: `{productId, productName, price, quantity}`.
An absent `productName` is modelled as the empty string (both are falsy in the
JavaScript fallback `item.productName || ...`). -/
structure SaleItem where
  productId : Int
  productName : String
  price : Int
  quantity : Int
deriving Repr, DecidableEq

/-- A sale record as stored in `sales.json` by `POST /api/sales`. -/
structure Sale where
  id : Int
  tenantId : Int
  userId : Int
  items : List SaleItem
  total : Int
  paymentMethod : String
  cashReceived : Option Int
  cashChange : Option Int
  status : String
  notes : String
  createdAt : String
deriving Repr, DecidableEq

/-- The fields of a tenant record that the `validateTenant` middleware reads.
`trialEnds` is modelled as a numeric timestamp: the middleware compares
`new Date(tenant.trialEnds) < new Date()`, a comparison of instants. -/
structure Tenant where
  id : Int
  isActive : Bool
  subscriptionStatus : String
  trialEnds : Int
deriving Repr, DecidableEq

/-- The error classes the routes translate to HTTP statuses:
`validation` is a 400, `forbidden` a 403, `notFound` a 404. -/
inductive ApiError where
  | validation (msg : String)
  | forbidden (msg : String)
  | notFound (msg : String)
deriving Repr, DecidableEq

/-- JavaScript truthiness of an optional string field: `undefined` and `""` are
falsy, every other string is truthy. -/
def truthy : Option String → Bool
  | none => false
  | some s => !(s == "")

/-- Does `l` start with `pat`, on character lists. -/
def charsStartWith : List Char → List Char → Bool
  | [], _ => true
  | _ :: _, [] => false
  | a :: as, b :: bs => a == b && charsStartWith as bs

/-- Does `l` contain `pat` as a contiguous run, on character lists. -/
def charsContain (pat l : List Char) : Bool :=
  match l with
  | [] => pat.isEmpty
  | _ :: t => charsStartWith pat l || charsContain pat t

/-- Substring containment, `hay.includes(pat)` on JavaScript strings. -/
def substrContains (hay pat : String) : Bool :=
  charsContain pat.toList hay.toList

/-- `s.toLowerCase()`, character by character. -/
def lowerStr (s : String) : String := String.mk (s.toList.map Char.toLower)

/-- `s.startsWith(pre)` on JavaScript strings. -/
def startsWithStr (s pre : String) : Bool := charsStartWith pre.toList s.toList

/-- Lexicographic strict comparison of character lists (JavaScript string
`<`, by code units). -/
def charsLt : List Char → List Char → Bool
  | [], [] => false
  | [], _ :: _ => true
  | _ :: _, [] => false
  | a :: as, b :: bs => if a < b then true else if b < a then false else charsLt as bs

/-- JavaScript string `a <= b`. -/
def strLe (a b : String) : Bool := !(charsLt b.toList a.toList)

/-- `tenants.find(t => t.id === req.user.tenantId)` followed by the two gate
checks of the `validateTenant` middleware (part_000 lines 170-188): missing or
inactive tenant is a 403, and a tenant whose subscription is not `active` whose
trial end lies strictly in the past is a 403; otherwise the request proceeds
with the tenant attached. -/
def validateTenant (tenants : List Tenant) (userTenantId : Int) (now : Int) :
    Except ApiError Tenant :=
  match tenants.find? (fun t => t.id == userTenantId) with
  | none => .error (.forbidden "Conta inativa ou nao encontrada")
  | some t =>
    if !t.isActive then .error (.forbidden "Conta inativa ou nao encontrada")
    else if t.subscriptionStatus != "active" && decide (t.trialEnds < now) then
      .error (.forbidden "Assinatura expirada. Regularize para continuar.")
    else .ok t

/-- `GET /api/products`: the tenant's slice of the products collection. -/
def listProducts (products : List Product) (tenantId : Int) : List Product :=
  products.filter (fun p => p.tenantId == tenantId)

/-- `GET /api/products/search` (part_000 lines 319-341).  A truthy `barcode`
parameter selects exact barcode matches; otherwise a truthy `q` is lowercased
once and matched as a substring of the lowercased name OR of the barcode as
stored (the code does not lowercase `p.barcode`); otherwise the unfiltered
tenant list.  The result is capped by `slice(0, 50)`. -/
def searchProducts (products : List Product) (tenantId : Int)
    (q barcode : Option String) : List Product :=
  let tenantProducts := listProducts products tenantId
  let result :=
    if truthy barcode then
      tenantProducts.filter (fun p => p.barcode == barcode.getD "")
    else if truthy q then
      let searchTerm := lowerStr (q.getD "")
      tenantProducts.filter (fun p =>
        substrContains (lowerStr p.name) searchTerm ||
        substrContains p.barcode searchTerm)
    else tenantProducts
  result.take 50

/-- The request body of `POST /api/products`: a JavaScript object in which any
key may be absent.  The handler spreads this body over the server-assigned
`id` and `tenantId` fields. -/
structure ProductBody where
  id : Option Int
  tenantId : Option Int
  barcode : Option String
  name : Option String
  price : Option Int
  cost : Option Int
  stock : Option Int
  lowStockAlert : Option Int
deriving Repr, DecidableEq

/-- `Math.max(...ids)` over a nonempty list, folded from its head. -/
def maxIdAux (ids : List Int) : Int := ids.foldl max (ids.headD 0)

/-- `list.length > 0 ? Math.max(...list.map(x => x.id)) + 1 : 1`. -/
def nextId (ids : List Int) : Int := if ids.isEmpty then 1 else maxIdAux ids + 1

/-- `POST /api/products` (part_000 lines 343-373).  Validation is the JavaScript
truthiness test `!product.name || !product.price || product.stock === undefined`
(so an empty name or a zero price is rejected, a zero stock is accepted).  The
stored record is `{id: newId, tenantId: req.user.tenantId, ...product,
createdAt, updatedAt}`: the body is spread AFTER the server-assigned keys, so a
body `id` or `tenantId` overrides them, while the timestamps come last and
cannot be overridden. -/
def createProduct (products : List Product) (userTenantId : Int)
    (body : ProductBody) (now : String) :
    Except ApiError (List Product × Product) :=
  if body.name.getD "" == "" || body.price.getD 0 == 0 || body.stock == none then
    .error (.validation "Nome, preco e estoque sao obrigatorios")
  else
    let newId := nextId (products.map (fun p => p.id))
    let newProduct : Product :=
      { id := body.id.getD newId
        tenantId := body.tenantId.getD userTenantId
        barcode := body.barcode.getD ""
        name := body.name.getD ""
        price := body.price.getD 0
        cost := body.cost.getD 0
        stock := body.stock.getD 0
        lowStockAlert := body.lowStockAlert
        createdAt := now
        updatedAt := now }
    .ok (products ++ [newProduct], newProduct)

/-- The `items` field of a sale request body: absent, present but not an array,
or an array of line items (`!saleData.items || !Array.isArray(saleData.items)`
distinguishes the first two from the third). -/
inductive ItemsField where
  | absent
  | notList
  | list (items : List SaleItem)
deriving Repr, DecidableEq

/-- The body of `POST /api/sales`. -/
structure SaleRequest where
  items : ItemsField
  paymentMethod : Option String
  cashReceived : Option Int
  cashChange : Option Int
  notes : Option String
deriving Repr, DecidableEq

/-- `!saleData.paymentMethod`: absent or empty payment method is falsy. -/
def pmInvalid (pm : Option String) : Bool := !(truthy pm)

/-- `saleData.cashReceived || null`: a zero is collapsed to `null`. -/
def orNull : Option Int → Option Int
  | none => none
  | some v => if v == 0 then none else some v

/-- `items.reduce((sum, item) => sum + (item.price * item.quantity), 0)`. -/
def saleTotal (items : List SaleItem) : Int :=
  items.foldl (fun sum it => sum + it.price * it.quantity) 0

/-- `Array.prototype.findIndex` as a structurally recursive function. -/
def findIdxA (p : α → Bool) : List α → Option Nat
  | [] => none
  | a :: l => if p a then some 0 else (findIdxA p l).map (· + 1)

/-- One iteration of the stock-update loop of `POST /api/sales` (part_000 lines
437-451): find the first product matching `(item.productId, req.user.tenantId)`;
if none, do nothing; otherwise subtract the item quantity from its stock,
re-stamp `updatedAt`, and clamp a negative result to `0`. -/
def applySaleItem (userTenantId : Int) (now : String)
    (products : List Product) (item : SaleItem) : List Product :=
  match findIdxA (fun p => p.id == item.productId && p.tenantId == userTenantId) products with
  | none => products
  | some i =>
    match products[i]? with
    | none => products
    | some p =>
      let s := p.stock - item.quantity
      products.set i { p with stock := if s < 0 then 0 else s, updatedAt := now }

/-- The whole stock-update loop: the line items are applied in order. -/
def updateStocks (userTenantId : Int) (now : String)
    (products : List Product) (items : List SaleItem) : List Product :=
  items.foldl (applySaleItem userTenantId now) products

/-- The two collections `POST /api/sales` touches. -/
structure SaleState where
  sales : List Sale
  products : List Product
deriving Repr, DecidableEq

/-- The `newSale` object built by `POST /api/sales` (part_000 lines 423-435):
fresh id, the authenticated tenant and user, the client-supplied items and
their computed total, status `completed`. -/
def newSaleOf (sales : List Sale) (req : SaleRequest) (userTenantId userId : Int)
    (now : String) (items : List SaleItem) : Sale :=
  { id := nextId (sales.map (fun s => s.id))
    tenantId := userTenantId
    userId := userId
    items := items
    total := saleTotal items
    paymentMethod := req.paymentMethod.getD ""
    cashReceived := orNull req.cashReceived
    cashChange := orNull req.cashChange
    status := "completed"
    notes := req.notes.getD ""
    createdAt := now }

/-- `POST /api/sales` (part_000 lines 401-463).  Validation first: a missing,
non-array or empty `items` field is a 400, then a falsy payment method is a
400; in both cases nothing is written.  Otherwise the sale is built with a
fresh id, the client-supplied items and total, status `completed`, and the
stock loop runs over the products collection. -/
def processSale (st : SaleState) (req : SaleRequest) (userTenantId userId : Int)
    (now : String) : Except ApiError Sale × SaleState :=
  match req.items with
  | .absent => (.error (.validation "Itens da venda sao obrigatorios"), st)
  | .notList => (.error (.validation "Itens da venda sao obrigatorios"), st)
  | .list items =>
    if items.isEmpty then (.error (.validation "Itens da venda sao obrigatorios"), st)
    else if pmInvalid req.paymentMethod then
      (.error (.validation "Metodo de pagamento e obrigatorio"), st)
    else
      let newSale := newSaleOf st.sales req userTenantId userId now items
      (.ok newSale,
        { sales := st.sales ++ [newSale]
          products := updateStocks userTenantId now st.products items })

/-- Is the route response a `ValidationError` (HTTP 400)? -/
def isValidationErr : Except ApiError Sale → Bool
  | .error (.validation _) => true
  | _ => false

/-- `GET /api/sales/today` (part_000 lines 465-480). -/
def salesToday (sales : List Sale) (tenantId : Int) (today : String) : List Sale :=
  sales.filter (fun s =>
    s.tenantId == tenantId && startsWithStr s.createdAt today && s.status == "completed")

/-- The sale set `GET /api/sales/stats` aggregates over (part_000 lines
484-495): the tenant's completed sales, then narrowed by the truthy date
bounds; the handler compares the ISO strings directly, appending an
end-of-day suffix to `endDate`. -/
def statsFiltered (sales : List Sale) (tenantId : Int)
    (startDate endDate : Option String) : List Sale :=
  let f := sales.filter (fun s => s.tenantId == tenantId && s.status == "completed")
  let f := if truthy startDate
    then f.filter (fun s => strLe (startDate.getD "") s.createdAt) else f
  if truthy endDate
    then f.filter (fun s => strLe s.createdAt (endDate.getD "" ++ "T23:59:59.999Z")) else f

/-- One running per-product aggregate of the `productSales` object built by
`GET /api/sales/stats` (part_000 lines 502-516). -/
structure ProdAgg where
  productId : Int
  productName : String
  quantity : Int
  revenue : Int
deriving Repr, DecidableEq

/-- `item.productName || 'Produto ' + item.productId` (applied when the
aggregate entry is first created). -/
def aggName (item : SaleItem) : String :=
  if item.productName == "" then "Produto " ++ toString item.productId
  else item.productName

/-- Inserting one line item into the `productSales` object.  The object is
keyed by `item.productId`; JavaScript enumerates integer-like (array-index)
keys of an object in ascending numeric order, so the model is an association
list kept sorted by ascending key: an existing key is updated in place, a new
key is inserted at its ordered position. -/
def aggInsert (l : List ProdAgg) (item : SaleItem) : List ProdAgg :=
  match l with
  | [] => [⟨item.productId, aggName item, item.quantity, item.price * item.quantity⟩]
  | e :: rest =>
    if e.productId == item.productId then
      { e with quantity := e.quantity + item.quantity
               revenue := e.revenue + item.price * item.quantity } :: rest
    else if item.productId < e.productId then
      ⟨item.productId, aggName item, item.quantity, item.price * item.quantity⟩ :: e :: rest
    else e :: aggInsert rest item

/-- `Object.values(productSales)` after the two nested `forEach` loops. -/
def productSales (salesL : List Sale) : List ProdAgg :=
  salesL.foldl (fun acc s => s.items.foldl aggInsert acc) []

/-- The ordering used by `sort((a, b) => b.quantity - a.quantity)`: `a` may be
placed before `b` when its quantity is at least `b`'s.  `Array.prototype.sort`
is stable, which insertion sort with this relation models exactly. -/
def qtyDesc (a b : ProdAgg) : Prop := b.quantity ≤ a.quantity

instance : DecidableRel qtyDesc := fun _ _ => Int.decLe _ _

instance : IsTotal ProdAgg qtyDesc := ⟨fun a b => le_total b.quantity a.quantity⟩

instance : IsTrans ProdAgg qtyDesc :=
  ⟨fun _ _ _ h1 h2 => le_trans h2 h1⟩

/-- `topProducts` of `GET /api/sales/stats` (part_000 lines 518-520): the
aggregates sorted descending by quantity (stably), truncated to 10. -/
def topProducts (sales : List Sale) (tenantId : Int)
    (startDate endDate : Option String) : List ProdAgg :=
  ((productSales (statsFiltered sales tenantId startDate endDate)).insertionSort qtyDesc).take 10

/-- `reduce((sum, sale) => sum + sale.total, 0)`. -/
def revenueOf (l : List Sale) : Int := l.foldl (fun a s => a + s.total) 0

/-- The summary projection used for `recentSales` in the dashboard. -/
structure RecentSale where
  id : Int
  total : Int
  paymentMethod : String
  createdAt : String
  itemsCount : Nat
deriving Repr, DecidableEq

/-- The projection `sale => ({id, total, paymentMethod, createdAt, itemsCount})`. -/
def saleProj (s : Sale) : RecentSale :=
  ⟨s.id, s.total, s.paymentMethod, s.createdAt, s.items.length⟩

/-- The ordering of `sort((a, b) => new Date(b.createdAt) - new Date(a.createdAt))`:
most recent first.  ISO-8601 UTC strings of the stamped format compare
lexicographically as instants, so the comparison is on the strings. -/
def recentDesc (a b : Sale) : Prop := b.createdAt ≤ a.createdAt

instance : DecidableRel recentDesc := fun _ _ => String.decidableLE _ _

instance : IsTotal Sale recentDesc := ⟨fun a b => le_total b.createdAt a.createdAt⟩

instance : IsTrans Sale recentDesc := ⟨fun _ _ _ h1 h2 => le_trans h2 h1⟩

/-- `sale.paymentMethod || 'unknown'`. -/
def pmKey (s : Sale) : String :=
  if s.paymentMethod == "" then "unknown" else s.paymentMethod

/-- Counting one sale into the `paymentMethods` object.  The keys are method
strings, which JavaScript enumerates in insertion order: a new key is appended
at the end. -/
def pmTally (l : List (String × Nat)) (k : String) : List (String × Nat) :=
  match l with
  | [] => [(k, 1)]
  | (k', n) :: rest => if k' == k then (k', n + 1) :: rest else (k', n) :: pmTally rest k

/-- `p.lowStockAlert || 5`: an absent or zero threshold falls back to 5. -/
def lowStockThreshold (p : Product) : Int :=
  match p.lowStockAlert with
  | none => 5
  | some v => if v == 0 then 5 else v

/-- The response of `GET /api/dashboard/overview`. -/
structure Overview where
  totalSales : Nat
  totalRevenue : Int
  lowStockCount : Nat
  averageTicket : Int
  paymentMethods : List (String × Nat)
  recentSales : List RecentSale
deriving Repr, DecidableEq

/-- `GET /api/dashboard/overview` (part_000 lines 535-579).  `todaySales` is
the tenant's completed sales narrowed to the current date and feeds the
counters, the revenue, the average ticket and the payment-method tally;
`lowStockCount` reads current stock; `recentSales` sorts `tenantSales` — the
tenant's completed sales of EVERY date — descending by creation time and takes
the first 10 projections.  (`averageTicket` is modelled with integer division;
no claim depends on its rounding.) -/
def dashboardOverview (sales : List Sale) (products : List Product)
    (tenantId : Int) (today : String) : Overview :=
  let tenantSales := sales.filter (fun s => s.tenantId == tenantId && s.status == "completed")
  let tenantProducts := listProducts products tenantId
  let todaySales := tenantSales.filter (fun s => startsWithStr s.createdAt today)
  let totalSales := todaySales.length
  let totalRevenue := revenueOf todaySales
  let lowStockCount :=
    (tenantProducts.filter (fun p => decide (p.stock < lowStockThreshold p))).length
  let averageTicket := if totalSales > 0 then totalRevenue / (totalSales : Int) else 0
  let paymentMethods := todaySales.foldl (fun acc s => pmTally acc (pmKey s)) []
  let recentSales := ((tenantSales.insertionSort recentDesc).take 10).map saleProj
  ⟨totalSales, totalRevenue, lowStockCount, averageTicket, paymentMethods, recentSales⟩

/-! Spec-side definitions, written from the specification's words, for
comparison against the embedded route handlers. -/

/-- Spec phrasing of the search result, as one filter per branch: tenant's
products whose barcode equals a non-empty `barcode` parameter; else, for a
non-empty query, those whose lowercased name or whose stored barcode contains
the lowercased query; else all of the tenant's products — capped at 50. -/
def specSearch (products : List Product) (tenantId : Int)
    (q barcode : Option String) : List Product :=
  if truthy barcode then
    (products.filter (fun p => p.tenantId == tenantId && p.barcode == barcode.getD "")).take 50
  else if truthy q then
    (products.filter (fun p => p.tenantId == tenantId &&
      (substrContains (lowerStr p.name) (lowerStr (q.getD "")) ||
       substrContains p.barcode (lowerStr (q.getD ""))))).take 50
  else (products.filter (fun p => p.tenantId == tenantId)).take 50

/-- All line items of a list of sales, in sale order then item order — the
stream the stats loops walk. -/
def saleItemsOf (l : List Sale) : List SaleItem := (l.map (fun s => s.items)).flatten

/-- Spec phrasing: the per-product sum of sold quantity over a sale set. -/
def specQty (l : List Sale) (pid : Int) : Int :=
  (((saleItemsOf l).filter (fun it => it.productId == pid)).map (fun it => it.quantity)).sum

/-- Spec phrasing: the per-product revenue over a sale set. -/
def specRevenue (l : List Sale) (pid : Int) : Int :=
  (((saleItemsOf l).filter (fun it => it.productId == pid)).map
    (fun it => it.price * it.quantity)).sum

/-- Spec phrasing of the claimed tie-break: the product ids in encounter order
across the sales' line items (first occurrence kept). -/
def specEncounterPids (l : List Sale) : List Int :=
  (saleItemsOf l).foldl
    (fun acc it => if it.productId ∈ acc then acc else acc ++ [it.productId]) []

/-- The ordering `topProducts` actually satisfies: strictly greater quantity
first, and on equal quantities the smaller product id first. -/
def aggOrder (a b : ProdAgg) : Prop :=
  b.quantity < a.quantity ∨ (a.quantity = b.quantity ∧ a.productId < b.productId)

/-- Ascending product-id ordering of aggregate entries. -/
def aggKeyLt (a b : ProdAgg) : Prop := a.productId < b.productId

/-- The quantity recorded for `pid` in an aggregate list (0 when absent). -/
def aggQty (l : List ProdAgg) (pid : Int) : Int :=
  match l.find? (fun e => e.productId == pid) with
  | some e => e.quantity
  | none => 0

/-- The revenue recorded for `pid` in an aggregate list (0 when absent). -/
def aggRevenue (l : List ProdAgg) (pid : Int) : Int :=
  match l.find? (fun e => e.productId == pid) with
  | some e => e.revenue
  | none => 0

/-- Spec phrasing: the tenant's completed sales whose creation date is the
current date. -/
def specTodayCompleted (sales : List Sale) (tenantId : Int) (today : String) : List Sale :=
  sales.filter (fun s =>
    s.tenantId == tenantId && s.status == "completed" && startsWithStr s.createdAt today)

/-- Spec phrasing: all of the tenant's completed sales, any date. -/
def specTenantCompleted (sales : List Sale) (tenantId : Int) : List Sale :=
  sales.filter (fun s => s.tenantId == tenantId && s.status == "completed")

/-! Concrete records used by the witnesses and counterexamples. -/

/-- A product with stock 3, the stock-clamping example of the spec. -/
def pEx : Product :=
  { id := 1, tenantId := 1, barcode := "779", name := "Cola", price := 10, cost := 6,
    stock := 3, lowStockAlert := none, createdAt := "T0", updatedAt := "T0" }

/-- A line item selling 5 units of product 1. -/
def iEx : SaleItem := { productId := 1, productName := "Cola", price := 10, quantity := 5 }

/-- State holding just `pEx` and no sales. -/
def stEx : SaleState := { sales := [], products := [pEx] }

/-- A valid cash sale request for `iEx`. -/
def reqEx : SaleRequest :=
  { items := .list [iEx], paymentMethod := some "cash",
    cashReceived := none, cashChange := none, notes := none }

/-- The items of the spec's total example: price 10 x 2 and price 5 x 1. -/
def items0 : List SaleItem :=
  [{ productId := 1, productName := "a", price := 10, quantity := 2 },
   { productId := 2, productName := "b", price := 5, quantity := 1 }]

/-- A valid request carrying `items0`. -/
def req0 : SaleRequest :=
  { items := .list items0, paymentMethod := some "pix",
    cashReceived := none, cashChange := none, notes := none }

/-- Empty state. -/
def st0 : SaleState := { sales := [], products := [] }

/-- The sale `req0` produces. -/
def sale0 : Sale := newSaleOf [] req0 1 1 "T" items0

/-- A request whose payment method is PRESENT but the empty string: JavaScript
truthiness rejects it even though the field is not missing. -/
def reqC4 : SaleRequest :=
  { items := .list [iEx], paymentMethod := some "",
    cashReceived := none, cashChange := none, notes := none }

/-- A creation body that smuggles `tenantId: 2` while the request is
authenticated as tenant 1. -/
def bodyX : ProductBody :=
  { id := none, tenantId := some 2, barcode := none, name := some "Agua",
    price := some 5, cost := none, stock := some 10, lowStockAlert := none }

/-- The product the server stores for `bodyX` under tenant 1: the spread body
overrides `tenantId` with 2. -/
def pX : Product :=
  { id := 1, tenantId := 2, barcode := "", name := "Agua", price := 5, cost := 0,
    stock := 10, lowStockAlert := none, createdAt := "T", updatedAt := "T" }

/-- A creation body supplying both `id` and `tenantId` explicitly. -/
def body10 : ProductBody :=
  { id := some 7, tenantId := some 9, barcode := none, name := some "Suco",
    price := some 4, cost := none, stock := some 2, lowStockAlert := none }

/-- A creation body omitting both `id` and `tenantId`. -/
def body10b : ProductBody :=
  { id := none, tenantId := none, barcode := none, name := some "Suco",
    price := some 4, cost := none, stock := some 2, lowStockAlert := none }

/-- A product whose barcode has upper-case letters. -/
def pC7 : Product :=
  { id := 1, tenantId := 1, barcode := "ABC123", name := "Kit", price := 10, cost := 5,
    stock := 1, lowStockAlert := none, createdAt := "T0", updatedAt := "T0" }

/-- A sale whose line items meet product 5 before product 3, one unit each. -/
def saleC8 : Sale :=
  { id := 1, tenantId := 1, userId := 1,
    items := [{ productId := 5, productName := "x", price := 2, quantity := 1 },
              { productId := 3, productName := "y", price := 2, quantity := 1 }],
    total := 4, paymentMethod := "cash", cashReceived := none, cashChange := none,
    status := "completed", notes := "", createdAt := "2026-10-11T10:00:00.000Z" }

/-- A completed sale of tenant 1 created on an old date. -/
def saleOld : Sale :=
  { id := 1, tenantId := 1, userId := 1,
    items := [{ productId := 1, productName := "z", price := 3, quantity := 1 }],
    total := 3, paymentMethod := "cash", cashReceived := none, cashChange := none,
    status := "completed", notes := "", createdAt := "2020-01-01T00:00:00.000Z" }

/-- A tenant whose subscription lapsed and whose trial ended at instant 10. -/
def tEx : Tenant :=
  { id := 1, isActive := true, subscriptionStatus := "canceled", trialEnds := 10 }

/-- A line item referencing a product id that matches nothing in `stEx`. -/
def iC5 : SaleItem := { productId := 99, productName := "Ghost", price := 7, quantity := 2 }

/-- A valid card sale request for the unmatched item `iC5`. -/
def reqC5 : SaleRequest :=
  { items := .list [iC5], paymentMethod := some "card",
    cashReceived := none, cashChange := none, notes := none }

/-- The sale `reqC5` produces against `stEx`. -/
def saleC5 : Sale := newSaleOf [] reqC5 1 1 "T" [iC5]

/-- The product stored for `body10` (body `id`/`tenantId` win the merge). -/
def p10 : Product :=
  { id := 7, tenantId := 9, barcode := "", name := "Suco", price := 4, cost := 0,
    stock := 2, lowStockAlert := none, createdAt := "T", updatedAt := "T" }

/-- The product stored for `body10b` over the catalog `[pEx]`: fresh id 2,
the authenticated tenant. -/
def p10b : Product :=
  { id := 2, tenantId := 1, barcode := "", name := "Suco", price := 4, cost := 0,
    stock := 2, lowStockAlert := none, createdAt := "T", updatedAt := "T" }

/-- The product stored for `body10b` over an empty catalog. -/
def pC3w : Product :=
  { id := 1, tenantId := 1, barcode := "", name := "Suco", price := 4, cost := 0,
    stock := 2, lowStockAlert := none, createdAt := "T", updatedAt := "T" }

/-- The sale `reqEx` produces against `stEx`. -/
def saleEx : Sale := newSaleOf [] reqEx 1 1 "T" [iEx]

/-- A tenant in good standing. -/
def tActive : Tenant :=
  { id := 1, isActive := true, subscriptionStatus := "active", trialEnds := 0 }

/-! Helper lemmas. -/

theorem foldl_add_map (f : α → Int) (l : List α) (a : Int) :
    l.foldl (fun s x => s + f x) a = a + (l.map f).sum := by
  induction l generalizing a with
  | nil => simp
  | cons x xs ih => simp [ih, add_assoc]

theorem saleTotal_eq_sum (items : List SaleItem) :
    saleTotal items = (items.map (fun it => it.price * it.quantity)).sum := by
  simpa using foldl_add_map (fun it => it.price * it.quantity) items 0

theorem revenueOf_eq_sum (l : List Sale) :
    revenueOf l = (l.map (fun s => s.total)).sum := by
  simpa using foldl_add_map (fun s : Sale => s.total) l 0

theorem findIdxA_some {p : α → Bool} {l : List α} {i : Nat}
    (h : findIdxA p l = some i) : ∃ a, l[i]? = some a ∧ p a = true := by
  induction l generalizing i with
  | nil => simp [findIdxA] at h
  | cons x xs ih =>
    by_cases hx : p x
    · simp [findIdxA, hx] at h
      exact h ▸ ⟨x, by simp, hx⟩
    · simp [findIdxA, hx] at h
      obtain ⟨j, hj, rfl⟩ := h
      obtain ⟨a, ha, hpa⟩ := ih hj
      exact ⟨a, by simpa using ha, hpa⟩

theorem applySaleItem_length (tid : Int) (now : String) (ps : List Product)
    (item : SaleItem) : (applySaleItem tid now ps item).length = ps.length := by
  unfold applySaleItem
  cases h : findIdxA (fun p => p.id == item.productId && p.tenantId == tid) ps with
  | none => rfl
  | some i =>
    dsimp only
    cases h2 : ps[i]? with
    | none => rfl
    | some p => simp

/-- The post-state of the clamped stock update never has negative stock. -/
theorem clamped_nonneg (s : Int) : 0 ≤ (if s < 0 then 0 else s) := by
  split
  · exact le_refl 0
  · omega

/-- One loop iteration, pointwise: a position is either untouched, or it is the
matched position and receives the clamped stock and the new timestamp. -/
theorem applySaleItem_getElem? (tid : Int) (now : String) (ps : List Product)
    (item : SaleItem) (i : Nat) (p : Product) (hp : ps[i]? = some p) :
    (applySaleItem tid now ps item)[i]? = some p ∨
    ((p.id = item.productId ∧ p.tenantId = tid) ∧
      (applySaleItem tid now ps item)[i]? =
        some { p with
               stock := if p.stock - item.quantity < 0 then 0 else p.stock - item.quantity
               updatedAt := now }) := by
  unfold applySaleItem
  cases h : findIdxA (fun q => q.id == item.productId && q.tenantId == tid) ps with
  | none => exact Or.inl hp
  | some j =>
    dsimp only
    cases h2 : ps[j]? with
    | none => exact Or.inl hp
    | some pj =>
      by_cases hij : i = j
      · subst hij
        obtain ⟨a, ha, hpa⟩ := findIdxA_some h
        rw [hp] at ha
        obtain rfl : p = a := by injection ha
        rw [hp] at h2
        obtain rfl : p = pj := by injection h2
        simp only [Bool.and_eq_true, beq_iff_eq] at hpa
        right
        refine ⟨⟨hpa.1, hpa.2⟩, ?_⟩
        have hlen : i < ps.length := by
          rcases List.getElem?_eq_some_iff.mp hp with ⟨hl, _⟩
          exact hl
        simp [List.getElem?_set_self hlen]
      · left
        rw [List.getElem?_set_ne (fun hji => hij hji.symm)]
        exact hp

/-- The full stock loop, pointwise: ids and tenant are preserved, nonnegative
stock stays nonnegative, an untouched position is exactly one no item matched,
and a changed position was matched by some item. -/
theorem updateStocks_getElem? (tid : Int) (now : String) (items : List SaleItem)
    (ps : List Product) (i : Nat) (p : Product) (hp : ps[i]? = some p) :
    ∃ p', (updateStocks tid now ps items)[i]? = some p' ∧
      p'.id = p.id ∧ p'.tenantId = p.tenantId ∧
      (0 ≤ p.stock → 0 ≤ p'.stock) ∧
      (p' ≠ p → ∃ it ∈ items, it.productId = p.id ∧ p.tenantId = tid) ∧
      ((∀ it ∈ items, ¬(it.productId = p.id ∧ p.tenantId = tid)) → p' = p) := by
  induction items generalizing ps p with
  | nil => exact ⟨p, hp, rfl, rfl, fun h => h, fun h => absurd rfl h, fun _ => rfl⟩
  | cons it rest ih =>
    have hstep := applySaleItem_getElem? tid now ps it i p hp
    cases hstep with
    | inl hsame =>
      obtain ⟨p', hget, hid, hten, hstock, hchanged, hframe⟩ :=
        ih (applySaleItem tid now ps it) p hsame
      refine ⟨p', hget, hid, hten, hstock, ?_, ?_⟩
      · intro hne
        obtain ⟨it', hmem, hmatch⟩ := hchanged hne
        exact ⟨it', List.mem_cons_of_mem _ hmem, hmatch⟩
      · intro hall
        exact hframe (fun it' hmem => hall it' (List.mem_cons_of_mem _ hmem))
    | inr hupd =>
      obtain ⟨⟨hid0, hten0⟩, hget0⟩ := hupd
      set pm : Product :=
        { p with
          stock := if p.stock - it.quantity < 0 then 0 else p.stock - it.quantity
          updatedAt := now } with hpm
      obtain ⟨p', hget, hid, hten, hstock, _, _⟩ :=
        ih (applySaleItem tid now ps it) pm hget0
      refine ⟨p', hget, ?_, ?_, ?_, ?_, ?_⟩
      · rw [hid]
      · rw [hten]
      · intro _
        exact hstock (clamped_nonneg _)
      · intro _
        exact ⟨it, List.mem_cons_self _ _, hid0.symm, hten0⟩
      · intro hall
        exact absurd ⟨hid0.symm, hten0⟩ (hall it (List.mem_cons_self _ _))

theorem updateStocks_length (tid : Int) (now : String) (items : List SaleItem)
    (ps : List Product) : (updateStocks tid now ps items).length = ps.length := by
  induction items generalizing ps with
  | nil => rfl
  | cons it rest ih =>
    show (updateStocks tid now (applySaleItem tid now ps it) rest).length = _
    rw [ih, applySaleItem_length]

/-- Inversion of a successful `POST /api/sales`. -/
theorem processSale_ok_inv (st : SaleState) (req : SaleRequest) (tid uid : Int)
    (now : String) (sale : Sale)
    (h : (processSale st req tid uid now).1 = .ok sale) :
    ∃ items, req.items = .list items ∧ items.isEmpty = false ∧
      pmInvalid req.paymentMethod = false ∧
      sale = newSaleOf st.sales req tid uid now items ∧
      (processSale st req tid uid now).2 =
        { sales := st.sales ++ [sale], products := updateStocks tid now st.products items } := by
  unfold processSale at h ⊢
  cases hitems : req.items with
  | absent => rw [hitems] at h; simp at h
  | notList => rw [hitems] at h; simp at h
  | list items =>
    rw [hitems] at h
    by_cases hne : items.isEmpty
    · simp [hne] at h
    · by_cases hpm : pmInvalid req.paymentMethod
      · simp [hne, hpm] at h
      · simp only [hne, hpm, Bool.false_eq_true, if_false] at h ⊢
        simp only [Except.ok.injEq] at h
        exact ⟨items, rfl, by simp [hne], by simp [hpm],
          h.symm, by rw [h]⟩

/-- A syntactically valid sale request always succeeds: matching of line items
against the catalog plays no part in validation. -/
theorem processSale_ok_of_valid (st : SaleState) (req : SaleRequest) (tid uid : Int)
    (now : String) (items : List SaleItem) (hitems : req.items = .list items)
    (hne : items.isEmpty = false) (hpm : pmInvalid req.paymentMethod = false) :
    (processSale st req tid uid now).1 = .ok (newSaleOf st.sales req tid uid now items) := by
  unfold processSale
  rw [hitems]
  simp [hne, hpm]

/-- The products component after a successful `POST /api/sales`. -/
theorem processSale_products (st : SaleState) (req : SaleRequest) (tid uid : Int)
    (now : String) (items : List SaleItem) (hitems : req.items = .list items)
    (hne : items.isEmpty = false) (hpm : pmInvalid req.paymentMethod = false) :
    (processSale st req tid uid now).2.products = updateStocks tid now st.products items := by
  unfold processSale
  rw [hitems]
  simp [hne, hpm]

/-- A failed `POST /api/sales` leaves the state untouched. -/
theorem processSale_err_state (st : SaleState) (req : SaleRequest) (tid uid : Int)
    (now : String) (e : ApiError)
    (h : (processSale st req tid uid now).1 = .error e) :
    (processSale st req tid uid now).2 = st := by
  unfold processSale at h ⊢
  cases hitems : req.items with
  | absent => rfl
  | notList => rfl
  | list items =>
    rw [hitems] at h
    by_cases hne : items.isEmpty
    · simp [hne]
    · by_cases hpm : pmInvalid req.paymentMethod
      · simp [hne, hpm]
      · simp [hne, hpm] at h

/-! Claim theorems. -/

/-- Claim C1: for every sale request processed by `POST /api/sales`, every
product position whose stock is non-negative before the sale has non-negative
stock after it; and when a line item's quantity exceeds the matched product's
stock at the moment the item is processed, the resulting stock of that product
is exactly 0, never negative. -/
theorem claim_C1_stock_clamped_nonneg :
    (∀ (st : SaleState) (req : SaleRequest) (tid uid : Int) (now : String)
        (i : Nat) (p p' : Product),
        st.products[i]? = some p →
        (processSale st req tid uid now).2.products[i]? = some p' →
        0 ≤ p.stock → 0 ≤ p'.stock) ∧
    (∀ (tid : Int) (now : String) (ps : List Product) (item : SaleItem)
        (i : Nat) (p : Product),
        findIdxA (fun q => q.id == item.productId && q.tenantId == tid) ps = some i →
        ps[i]? = some p → p.stock < item.quantity →
        (applySaleItem tid now ps item)[i]? =
          some { p with stock := 0, updatedAt := now }) := by
  constructor
  · intro st req tid uid now i p p' hp hp' hnn
    cases hres : (processSale st req tid uid now).1 with
    | error e =>
      rw [processSale_err_state st req tid uid now e hres, hp] at hp'
      obtain rfl : p = p' := by injection hp'
      exact hnn
    | ok sale =>
      obtain ⟨items, _, _, _, _, hst⟩ := processSale_ok_inv st req tid uid now sale hres
      rw [hst] at hp'
      obtain ⟨p'', hget, _, _, hstock, _, _⟩ :=
        updateStocks_getElem? tid now items st.products i p hp
      dsimp only at hp'
      rw [hget] at hp'
      obtain rfl : p'' = p' := by injection hp'
      exact hstock hnn
  · intro tid now ps item i p hfind hp hlt
    unfold applySaleItem
    rw [hfind]
    dsimp only
    rw [hp]
    dsimp only
    have hlen : i < ps.length := (List.getElem?_eq_some_iff.mp hp).1
    have hz : p.stock - item.quantity < 0 := by omega
    simp [List.getElem?_set_self hlen, hz]

/-- Witness for C1: selling 5 units of a product with stock 3 leaves stock 0,
which is non-negative. -/
theorem claim_C1_stock_clamped_nonneg_witness :
    (0 : Int) ≤ ({ pEx with stock := 0, updatedAt := "T" } : Product).stock ∧
    (applySaleItem 1 "T" [pEx] iEx)[0]? =
      some { pEx with stock := 0, updatedAt := "T" } :=
  ⟨claim_C1_stock_clamped_nonneg.1 stEx reqEx 1 1 "T" 0 pEx
      { pEx with stock := 0, updatedAt := "T" } (by rfl) (by rfl) (by decide),
   claim_C1_stock_clamped_nonneg.2 1 "T" [pEx] iEx 0 pEx (by rfl) (by rfl) (by decide)⟩

/-- Claim C2: the stored sale's total is the sum over the request's line items
of price times quantity, computed from the client-supplied prices. -/
theorem claim_C2_total_eq_sum :
    ∀ (st : SaleState) (req : SaleRequest) (tid uid : Int) (now : String)
      (sale : Sale) (items : List SaleItem),
      req.items = .list items →
      (processSale st req tid uid now).1 = .ok sale →
      sale.total = (items.map (fun it => it.price * it.quantity)).sum := by
  intro st req tid uid now sale items hitems hok
  obtain ⟨items', hitems', _, _, hsale, _⟩ := processSale_ok_inv st req tid uid now sale hok
  rw [hitems] at hitems'
  obtain rfl : items = items' := by injection hitems'
  rw [hsale]
  show saleTotal items = _
  exact saleTotal_eq_sum items

/-- Witness for C2: items `[(price 10, qty 2), (price 5, qty 1)]` total 25. -/
theorem claim_C2_total_eq_sum_witness :
    sale0.total = (items0.map (fun it => it.price * it.quantity)).sum ∧ sale0.total = 25 :=
  ⟨claim_C2_total_eq_sum st0 req0 1 1 "T" sale0 items0 rfl rfl, by decide⟩

/-- Counterexample to claim C4 as stated: a request whose payment method is
PRESENT (the empty string) and whose items are a non-empty list is still
rejected with a `ValidationError`, so the failure condition is not "payment
method missing". -/
theorem claim_C4_counterexample :
    reqC4.paymentMethod = some "" ∧ reqC4.items = .list [iEx] ∧
    isValidationErr (processSale st0 reqC4 1 1 "T").1 = true := by
  refine ⟨rfl, rfl, ?_⟩
  rfl

/-- Claim C4 (amended): `POST /api/sales` fails with a `ValidationError` iff
`items` is missing, not a list, or empty, or the payment method is missing OR
the empty string (JavaScript truthiness); in every failing case the state —
sales and product stocks — is unchanged. -/
theorem claim_C4_validation_iff :
    ∀ st req tid uid now,
      (isValidationErr (processSale st req tid uid now).1 = true ↔
        (req.items = .absent ∨ req.items = .notList ∨ req.items = .list [] ∨
         req.paymentMethod = none ∨ req.paymentMethod = some "")) ∧
      (isValidationErr (processSale st req tid uid now).1 = true →
        (processSale st req tid uid now).2 = st) := by
  intro st req tid uid now
  constructor
  · cases hitems : req.items with
    | absent => simp [processSale, isValidationErr, hitems]
    | notList => simp [processSale, isValidationErr, hitems]
    | list items =>
      cases items with
      | nil => simp [processSale, isValidationErr, hitems]
      | cons a l =>
        cases hpm : req.paymentMethod with
        | none => simp [processSale, isValidationErr, hitems, hpm, pmInvalid, truthy]
        | some s =>
          by_cases hs : s = ""
          · subst hs
            simp [processSale, isValidationErr, hitems, hpm, pmInvalid, truthy]
          · simp [processSale, isValidationErr, hitems, hpm, pmInvalid, truthy, hs]
  · intro hv
    cases hres : (processSale st req tid uid now).1 with
    | error e => exact processSale_err_state st req tid uid now e hres
    | ok sale => rw [hres] at hv; simp [isValidationErr] at hv

/-- Witness for C4 (amended): the empty-payment-method request leaves the
state untouched. -/
theorem claim_C4_validation_iff_witness :
    (processSale st0 reqC4 1 1 "T").2 = st0 :=
  (claim_C4_validation_iff st0 reqC4 1 1 "T").2 (by rfl)

/-- Claim C5: a syntactically valid sale always succeeds regardless of which
items match catalog products; the persisted sale carries exactly the request's
items; a product matched by no line item is unchanged; a product that changed
was matched by some line item's `(productId, tenantId)`. -/
theorem claim_C5_unmatched_item_frame :
    (∀ (st : SaleState) (req : SaleRequest) (tid uid : Int) (now : String)
      (items : List SaleItem),
      req.items = .list items → items.isEmpty = false →
      pmInvalid req.paymentMethod = false →
      (processSale st req tid uid now).1 = .ok (newSaleOf st.sales req tid uid now items)) ∧
    (∀ (st : SaleState) (req : SaleRequest) (tid uid : Int) (now : String)
      (sale : Sale) (items : List SaleItem),
      req.items = .list items →
      (processSale st req tid uid now).1 = .ok sale →
      sale.items = items ∧
      (∀ (i : Nat) (p : Product), st.products[i]? = some p →
        (∀ it ∈ items, ¬(it.productId = p.id ∧ p.tenantId = tid)) →
        (processSale st req tid uid now).2.products[i]? = some p) ∧
      (∀ (i : Nat) (p p' : Product), st.products[i]? = some p →
        (processSale st req tid uid now).2.products[i]? = some p' → p' ≠ p →
        ∃ it ∈ items, it.productId = p.id ∧ p.tenantId = tid)) := by
  refine ⟨processSale_ok_of_valid, ?_⟩
  intro st req tid uid now sale items hitems hok
  obtain ⟨items', hitems', _, _, hsale, hst⟩ := processSale_ok_inv st req tid uid now sale hok
  rw [hitems] at hitems'
  obtain rfl : items = items' := by injection hitems'
  refine ⟨by rw [hsale]; simp [newSaleOf], ?_, ?_⟩
  · intro i p hp hall
    rw [hst]
    obtain ⟨p', hget, _, _, _, _, hframe⟩ :=
      updateStocks_getElem? tid now items st.products i p hp
    dsimp only
    rw [hget, hframe hall]
  · intro i p p' hp hp' hne
    rw [hst] at hp'
    obtain ⟨p'', hget, _, _, _, hchanged, _⟩ :=
      updateStocks_getElem? tid now items st.products i p hp
    dsimp only at hp'
    rw [hget] at hp'
    obtain rfl : p'' = p' := by injection hp'
    exact hchanged hne

/-- Witness for C5: selling an unmatched product id 99 succeeds, stores the
item, and leaves the catalog's only product untouched. -/
theorem claim_C5_unmatched_item_frame_witness :
    (processSale stEx reqC5 1 1 "T").1 = .ok (newSaleOf [] reqC5 1 1 "T" [iC5]) ∧
    (processSale stEx reqC5 1 1 "T").2.products[0]? = some pEx :=
  ⟨claim_C5_unmatched_item_frame.1 stEx reqC5 1 1 "T" [iC5] rfl (by rfl) (by rfl),
   ((claim_C5_unmatched_item_frame.2 stEx reqC5 1 1 "T" saleC5 [iC5] rfl
      (by rfl)).2.1) 0 pEx (by rfl) (by decide)⟩

/-! Lemmas about `Math.max` spreading, creation, and tenant scoping. -/

theorem le_foldl_max (l : List Int) (a : Int) : a ≤ l.foldl max a := by
  induction l generalizing a with
  | nil => exact le_refl a
  | cons x xs ih => exact le_trans (le_max_left a x) (ih (max a x))

theorem mem_le_foldl_max {x : Int} (l : List Int) (a : Int) (h : x ∈ l) :
    x ≤ l.foldl max a := by
  induction l generalizing a with
  | nil => cases h
  | cons y ys ih =>
    rcases List.mem_cons.mp h with rfl | hmem
    · exact le_trans (le_max_right a x) (le_foldl_max ys (max a x))
    · exact ih (max a y) hmem

theorem foldl_max_mem (l : List Int) (a : Int) :
    l.foldl max a = a ∨ l.foldl max a ∈ l := by
  induction l generalizing a with
  | nil => exact Or.inl rfl
  | cons y ys ih =>
    rcases ih (max a y) with heq | hmem
    · rcases max_choice a y with hc | hc
      · exact Or.inl (show ys.foldl max (max a y) = a from heq.trans hc)
      · refine Or.inr ?_
        show ys.foldl max (max a y) ∈ y :: ys
        rw [heq, hc]
        exact List.mem_cons_self y ys
    · exact Or.inr (List.mem_cons_of_mem y hmem)

/-- `maxIdAux` of a nonempty list is a maximum that belongs to the list. -/
theorem maxIdAux_spec (x : Int) (xs : List Int) :
    (∀ y ∈ x :: xs, y ≤ maxIdAux (x :: xs)) ∧ maxIdAux (x :: xs) ∈ x :: xs := by
  unfold maxIdAux
  constructor
  · intro y hy
    exact mem_le_foldl_max (x :: xs) ((x :: xs).headD 0) hy
  · rcases foldl_max_mem (x :: xs) ((x :: xs).headD 0) with heq | hmem
    · rw [heq]
      exact List.mem_cons_self x xs
    · exact hmem

/-- Inversion of a successful `POST /api/products`. -/
theorem createProduct_ok_inv (products : List Product) (uid : Int)
    (body : ProductBody) (now : String) (ps' : List Product) (p : Product)
    (h : createProduct products uid body now = .ok (ps', p)) :
    p = { id := body.id.getD (nextId (products.map (fun q => q.id)))
          tenantId := body.tenantId.getD uid
          barcode := body.barcode.getD ""
          name := body.name.getD ""
          price := body.price.getD 0
          cost := body.cost.getD 0
          stock := body.stock.getD 0
          lowStockAlert := body.lowStockAlert
          createdAt := now
          updatedAt := now } ∧ ps' = products ++ [p] := by
  unfold createProduct at h
  by_cases hv : (body.name.getD "" == "" || body.price.getD 0 == 0 || body.stock == none) = true
  · rw [if_pos hv] at h
    simp at h
  · rw [if_neg hv] at h
    simp only [Except.ok.injEq, Prod.mk.injEq] at h
    exact ⟨h.2.symm, by rw [h.1.symm, h.2]⟩

theorem mem_salesToday_tenant {s : Sale} (salesL : List Sale) (tid : Int)
    (today : String) (h : s ∈ salesToday salesL tid today) : s.tenantId = tid := by
  have := (List.mem_filter.mp h).2
  simp only [Bool.and_eq_true, beq_iff_eq] at this
  exact this.1.1

theorem mem_statsFiltered_tenant {s : Sale} (salesL : List Sale) (tid : Int)
    (sd ed : Option String) (h : s ∈ statsFiltered salesL tid sd ed) :
    s.tenantId = tid := by
  unfold statsFiltered at h
  have hbase : s ∈ salesL.filter
      (fun s => s.tenantId == tid && s.status == "completed") := by
    dsimp only at h
    split at h
    · split at h
      · exact (List.mem_filter.mp (List.mem_filter.mp h).1).1
      · exact (List.mem_filter.mp h).1
    · split at h
      · exact (List.mem_filter.mp h).1
      · exact h
  have := (List.mem_filter.mp hbase).2
  simp only [Bool.and_eq_true, beq_iff_eq] at this
  exact this.1

theorem mem_specTenantCompleted {s : Sale} (salesL : List Sale) (tid : Int)
    (h : s ∈ specTenantCompleted salesL tid) :
    s ∈ salesL ∧ s.tenantId = tid ∧ s.status = "completed" := by
  have hm := List.mem_filter.mp h
  have := hm.2
  simp only [Bool.and_eq_true, beq_iff_eq] at this
  exact ⟨hm.1, this.1, this.2⟩

theorem mem_listProducts_tenant {p : Product} (psL : List Product) (tid : Int)
    (h : p ∈ listProducts psL tid) : p.tenantId = tid := by
  have := (List.mem_filter.mp h).2
  simpa using this

theorem mem_searchProducts_tenant {p : Product} (psL : List Product) (tid : Int)
    (q bc : Option String) (h : p ∈ searchProducts psL tid q bc) :
    p.tenantId = tid := by
  unfold searchProducts at h
  dsimp only at h
  have hmem : p ∈ listProducts psL tid := by
    split at h
    · exact (List.mem_filter.mp (List.mem_of_mem_take h)).1
    · split at h
      · exact (List.mem_filter.mp (List.mem_of_mem_take h)).1
      · exact List.mem_of_mem_take h
  exact mem_listProducts_tenant psL tid hmem

/-- Every entry of the dashboard's `recentSales` is the projection of one of
the tenant's completed sales (of any date). -/
theorem recentSales_provenance {r : RecentSale} (salesL : List Sale)
    (psL : List Product) (tid : Int) (today : String)
    (h : r ∈ (dashboardOverview salesL psL tid today).recentSales) :
    ∃ s, s ∈ salesL ∧ s.tenantId = tid ∧ s.status = "completed" ∧ r = saleProj s := by
  unfold dashboardOverview at h
  dsimp only at h
  obtain ⟨s, hs, rfl⟩ := List.mem_map.mp h
  have hs' : s ∈ salesL.filter
      (fun s => s.tenantId == tid && s.status == "completed") :=
    (List.perm_insertionSort recentDesc _).subset (List.mem_of_mem_take hs)
  obtain ⟨hmem, hpred⟩ := List.mem_filter.mp hs'
  simp only [Bool.and_eq_true, beq_iff_eq] at hpred
  exact ⟨s, hmem, hpred.1, hpred.2, rfl⟩

/-- Counterexample to claim C3 as stated: a creation request authenticated as
tenant 1 whose body carries `tenantId: 2` stores a product that tenant 2's
listing returns. -/
theorem claim_C3_counterexample :
    createProduct [] 1 bodyX "T" = .ok ([pX], pX) ∧
    pX.tenantId = 2 ∧ listProducts [pX] 2 = [pX] :=
  ⟨rfl, rfl, rfl⟩

/-- Claim C3 (amended): sales always carry the authenticated tenant and are
invisible to every other tenant's sale listings and reports; a product created
by a body that does NOT supply a `tenantId` carries the authenticated tenant
and is invisible to every other tenant's product listing and search; every
dashboard `recentSales` entry comes from a sale of the requesting tenant. -/
theorem claim_C3_tenant_isolation :
    (∀ (st : SaleState) (req : SaleRequest) (tidA uid : Int) (now : String) (sale : Sale),
      (processSale st req tidA uid now).1 = .ok sale →
      sale.tenantId = tidA ∧
      (∀ (salesL : List Sale) (tidB : Int) (today : String), tidB ≠ tidA →
        sale ∉ salesToday salesL tidB today) ∧
      (∀ (salesL : List Sale) (tidB : Int) (sd ed : Option String), tidB ≠ tidA →
        sale ∉ statsFiltered salesL tidB sd ed) ∧
      (∀ (salesL : List Sale) (tidB : Int), tidB ≠ tidA →
        sale ∉ specTenantCompleted salesL tidB)) ∧
    (∀ (products : List Product) (tidA : Int) (body : ProductBody) (now : String)
        (ps' : List Product) (p : Product),
      body.tenantId = none →
      createProduct products tidA body now = .ok (ps', p) →
      p.tenantId = tidA ∧
      (∀ (psL : List Product) (tidB : Int), tidB ≠ tidA → p ∉ listProducts psL tidB) ∧
      (∀ (psL : List Product) (tidB : Int) (q bc : Option String), tidB ≠ tidA →
        p ∉ searchProducts psL tidB q bc)) ∧
    (∀ (salesL : List Sale) (psL : List Product) (tid : Int) (today : String)
        (r : RecentSale),
      r ∈ (dashboardOverview salesL psL tid today).recentSales →
      ∃ s, s ∈ salesL ∧ s.tenantId = tid ∧ s.status = "completed" ∧ r = saleProj s) := by
  refine ⟨?_, ?_, fun salesL psL tid today r h => recentSales_provenance salesL psL tid today h⟩
  · intro st req tidA uid now sale hok
    obtain ⟨items, _, _, _, hsale, _⟩ := processSale_ok_inv st req tidA uid now sale hok
    have hten : sale.tenantId = tidA := by rw [hsale]; simp [newSaleOf]
    refine ⟨hten, ?_, ?_, ?_⟩
    · intro salesL tidB today hne hmem
      exact hne ((mem_salesToday_tenant salesL tidB today hmem) ▸ hten ▸ rfl)
    · intro salesL tidB sd ed hne hmem
      exact hne ((mem_statsFiltered_tenant salesL tidB sd ed hmem) ▸ hten ▸ rfl)
    · intro salesL tidB hne hmem
      exact hne ((mem_specTenantCompleted salesL tidB hmem).2.1 ▸ hten ▸ rfl)
  · intro products tidA body now ps' p hnone hok
    obtain ⟨hp, _⟩ := createProduct_ok_inv products tidA body now ps' p hok
    have hten : p.tenantId = tidA := by rw [hp]; simp [hnone]
    refine ⟨hten, ?_, ?_⟩
    · intro psL tidB hne hmem
      exact hne ((mem_listProducts_tenant psL tidB hmem) ▸ hten ▸ rfl)
    · intro psL tidB q bc hne hmem
      exact hne ((mem_searchProducts_tenant psL tidB q bc hmem) ▸ hten ▸ rfl)

/-- Witness for C3 (amended): a sale of tenant 1 is absent from tenant 2's
daily listing, and a product created without a body `tenantId` is absent from
tenant 2's listing. -/
theorem claim_C3_tenant_isolation_witness :
    saleEx.tenantId = 1 ∧ saleEx ∉ salesToday [saleEx] 2 "2026" ∧
    pC3w.tenantId = 1 ∧ pC3w ∉ listProducts [pX] 2 :=
  ⟨(claim_C3_tenant_isolation.1 stEx reqEx 1 1 "T" saleEx (by rfl)).1,
   (claim_C3_tenant_isolation.1 stEx reqEx 1 1 "T" saleEx (by rfl)).2.1
      [saleEx] 2 "2026" (by decide),
   (claim_C3_tenant_isolation.2.1 [] 1 body10b "T" [pC3w] pC3w rfl (by rfl)).1,
   (claim_C3_tenant_isolation.2.1 [] 1 body10b "T" [pC3w] pC3w rfl (by rfl)).2.1
      [pX] 2 (by decide)⟩

/-- Claim C6: after authentication, the tenant gate fails (with a
`ForbiddenError`) exactly when no tenant carries the user's tenant id, or that
tenant is inactive, or its subscription is not `active` and its trial expiry
is strictly in the past; otherwise the request proceeds with that tenant. -/
theorem claim_C6_tenant_gate :
    ∀ (tenants : List Tenant) (tid now : Int),
      tenants.Pairwise (fun a b => a.id ≠ b.id) →
      (((∃ e, validateTenant tenants tid now = .error e) ↔
        ((∀ t ∈ tenants, t.id ≠ tid) ∨
         (∃ t ∈ tenants, t.id = tid ∧
           (t.isActive = false ∨
            (t.subscriptionStatus ≠ "active" ∧ t.trialEnds < now))))) ∧
      (∀ t, validateTenant tenants tid now = .ok t → t ∈ tenants ∧ t.id = tid) ∧
      (∀ e, validateTenant tenants tid now = .error e → ∃ msg, e = .forbidden msg)) := by
  intro tenants tid now huniq
  cases hfind : tenants.find? (fun t => t.id == tid) with
  | none =>
    have hnone : ∀ t ∈ tenants, t.id ≠ tid := by
      intro t ht
      simpa using List.find?_eq_none.mp hfind t ht
    have hval : validateTenant tenants tid now =
        .error (.forbidden "Conta inativa ou nao encontrada") := by
      unfold validateTenant
      rw [hfind]
    refine ⟨⟨fun _ => Or.inl hnone, fun _ => ⟨_, hval⟩⟩, ?_, ?_⟩
    · intro t h
      rw [hval] at h
      cases h
    · intro e h
      rw [hval] at h
      injection h with h2
      exact ⟨_, h2.symm⟩
  | some t0 =>
    have ht0id : t0.id = tid := by simpa using List.find?_some hfind
    have ht0mem : t0 ∈ tenants := List.mem_of_find?_eq_some hfind
    have huniq' : ∀ t ∈ tenants, t.id = tid → t = t0 := by
      intro t ht htid
      by_contra hne
      exact (List.Pairwise.forall (fun _ _ h => Ne.symm h) huniq ht ht0mem hne)
        (htid.trans ht0id.symm)
    have hval0 : validateTenant tenants tid now =
        (if !t0.isActive then .error (.forbidden "Conta inativa ou nao encontrada")
         else if t0.subscriptionStatus != "active" && decide (t0.trialEnds < now) then
           .error (.forbidden "Assinatura expirada. Regularize para continuar.")
         else .ok t0) := by
      unfold validateTenant
      rw [hfind]
    by_cases hact : t0.isActive
    · rw [if_neg (by simp [hact])] at hval0
      by_cases hsub : (t0.subscriptionStatus != "active" && decide (t0.trialEnds < now)) = true
      · rw [if_pos hsub] at hval0
        have hbad : t0.subscriptionStatus ≠ "active" ∧ t0.trialEnds < now := by
          simpa using hsub
        refine ⟨⟨fun _ => Or.inr ⟨t0, ht0mem, ht0id, Or.inr hbad⟩, fun _ => ⟨_, hval0⟩⟩, ?_, ?_⟩
        · intro t h
          rw [hval0] at h
          cases h
        · intro e h
          rw [hval0] at h
          injection h with h2
          exact ⟨_, h2.symm⟩
      · rw [if_neg hsub] at hval0
        refine ⟨⟨fun he => ?_, fun hr => ?_⟩, ?_, ?_⟩
        · obtain ⟨e, he⟩ := he
          rw [hval0] at he
          cases he
        · exfalso
          rcases hr with hnone | ⟨t, ht, htid, hbadt⟩
          · exact hnone t0 ht0mem ht0id
          · obtain rfl : t = t0 := huniq' t ht htid
            rcases hbadt with hinact | hexp
            · rw [hact] at hinact
              cases hinact
            · exact hsub (by simpa using hexp)
        · intro t h
          rw [hval0] at h
          injection h with h2
          subst h2
          exact ⟨ht0mem, ht0id⟩
        · intro e h
          rw [hval0] at h
          cases h
    · have hact' : t0.isActive = false := by simpa using hact
      rw [if_pos (by simp [hact'])] at hval0
      refine ⟨⟨fun _ => Or.inr ⟨t0, ht0mem, ht0id, Or.inl hact'⟩, fun _ => ⟨_, hval0⟩⟩, ?_, ?_⟩
      · intro t h
        rw [hval0] at h
        cases h
      · intro e h
        rw [hval0] at h
        injection h with h2
        exact ⟨_, h2.symm⟩

/-- Witness for C6: a tenant in good standing passes the gate. -/
theorem claim_C6_tenant_gate_witness :
    tActive ∈ [tActive] ∧ tActive.id = 1 :=
  (claim_C6_tenant_gate [tActive] 1 20 (by simp)).2.1 tActive (by rfl)

/-- Counterexample to claim C7 as stated: with query `abc123` against a
product whose barcode is `ABC123`, the barcode does contain the query
case-insensitively, yet the search returns nothing — the code matches the
lowercased query against the barcode as stored, case-sensitively. -/
theorem claim_C7_counterexample :
    searchProducts [pC7] 1 (some "abc123") none = [] ∧
    substrContains (lowerStr pC7.barcode) "abc123" = true := by
  exact ⟨by decide, by decide⟩

/-- Claim C7 (amended): the search result always has at most 50 products and
only the tenant's products; with a non-empty barcode parameter it is the
tenant's products with exactly that barcode; else with a non-empty query the
tenant's products whose lowercased name contains the lowercased query or whose
barcode AS STORED contains the lowercased query; else all the tenant's
products — each branch capped at the first 50. -/
theorem claim_C7_search_semantics :
    ∀ (products : List Product) (tid : Int) (q bc : Option String),
      searchProducts products tid q bc = specSearch products tid q bc ∧
      (searchProducts products tid q bc).length ≤ 50 ∧
      ∀ p ∈ searchProducts products tid q bc, p.tenantId = tid := by
  intro products tid q bc
  have heq : searchProducts products tid q bc = specSearch products tid q bc := by
    unfold searchProducts specSearch listProducts
    dsimp only
    split
    · rw [List.filter_filter]
      congr 1
      apply List.filter_congr
      intro p _
      cases hpt : p.tenantId == tid <;> cases hpb : p.barcode == bc.getD "" <;> simp [hpt, hpb]
    · split
      · rw [List.filter_filter]
        congr 1
        apply List.filter_congr
        intro p _
        cases hpt : p.tenantId == tid <;>
          cases hpm : (substrContains (lowerStr p.name) (lowerStr (q.getD "")) ||
            substrContains p.barcode (lowerStr (q.getD ""))) <;> simp [hpt, hpm]
      · rfl
  refine ⟨heq, ?_, fun p hp => mem_searchProducts_tenant products tid q bc hp⟩
  unfold searchProducts
  dsimp only
  split
  · exact List.length_take_le 50 _
  · split
    · exact List.length_take_le 50 _
    · exact List.length_take_le 50 _

/-- Witness for C7 (amended): the catalog of one product searched with no
parameters returns that product, which belongs to the tenant. -/
theorem claim_C7_search_semantics_witness :
    pC7.tenantId = 1 :=
  (claim_C7_search_semantics [pC7] 1 none none).2.2 pC7 (by decide)

/-- Claim C10: the creation body is merged after the server-assigned fields —
a body `id` or `tenantId` overrides the server's; only when both are omitted
is the stored product's tenant the authenticated tenant and its id the
successor of the catalog's maximum id (1 on an empty catalog). -/
theorem claim_C10_body_merge_order :
    ∀ (products : List Product) (userTenantId : Int) (body : ProductBody)
      (now : String) (ps' : List Product) (p : Product),
      createProduct products userTenantId body now = .ok (ps', p) →
      (∀ i : Int, body.id = some i → p.id = i) ∧
      (∀ t : Int, body.tenantId = some t → p.tenantId = t) ∧
      (body.id = none → body.tenantId = none →
        p.tenantId = userTenantId ∧
        ((products = [] ∧ p.id = 1) ∨
         ((∀ q ∈ products, q.id < p.id) ∧ ∃ q ∈ products, p.id = q.id + 1))) := by
  intro products userTenantId body now ps' p hok
  obtain ⟨hp, _⟩ := createProduct_ok_inv products userTenantId body now ps' p hok
  refine ⟨?_, ?_, ?_⟩
  · intro i hi
    rw [hp]
    simp [hi]
  · intro t ht
    rw [hp]
    simp [ht]
  · intro hid hten
    refine ⟨by rw [hp]; simp [hten], ?_⟩
    have hpid : p.id = nextId (products.map (fun q => q.id)) := by
      rw [hp]; simp [hid]
    cases hps : products with
    | nil =>
      left
      refine ⟨rfl, ?_⟩
      rw [hpid, hps]
      rfl
    | cons p0 ps0 =>
      right
      rw [hps] at hpid
      have hmax := maxIdAux_spec p0.id (ps0.map (fun q => q.id))
      have hnext : p.id = maxIdAux (p0.id :: ps0.map (fun q => q.id)) + 1 := by
        rw [hpid]
        rfl
      constructor
      · intro q hq
        have : q.id ∈ p0.id :: ps0.map (fun r => r.id) := by
          rcases List.mem_cons.mp hq with rfl | hq'
          · exact List.mem_cons_self _ _
          · exact List.mem_cons_of_mem _ (List.mem_map_of_mem (fun r => r.id) hq')
        have hle := hmax.1 q.id this
        omega
      · have hmem := hmax.2
        rcases List.mem_cons.mp hmem with heq | hmem'
        · exact ⟨p0, List.mem_cons_self _ _, by rw [hnext, heq]⟩
        · obtain ⟨q, hq, hqid⟩ := List.mem_map.mp hmem'
          exact ⟨q, List.mem_cons_of_mem _ hq, by rw [hnext, hqid]⟩

/-- Witness for C10: a body carrying `id: 7, tenantId: 9` is stored verbatim;
a body omitting both gets the authenticated tenant 1 and id 2 on a catalog
whose maximum id is 1. -/
theorem claim_C10_body_merge_order_witness :
    p10.id = 7 ∧ p10.tenantId = 9 ∧ p10b.tenantId = 1 :=
  ⟨(claim_C10_body_merge_order [pEx] 1 body10 "T" ([pEx] ++ [p10]) p10 (by rfl)).1 7 rfl,
   (claim_C10_body_merge_order [pEx] 1 body10 "T" ([pEx] ++ [p10]) p10 (by rfl)).2.1 9 rfl,
   ((claim_C10_body_merge_order [pEx] 1 body10b "T" ([pEx] ++ [p10b]) p10b
      (by rfl)).2.2 rfl rfl).1⟩

/-! Lemmas about the `productSales` aggregation object and its stable sort. -/

theorem mem_aggInsert_key {x : ProdAgg} (l : List ProdAgg) (item : SaleItem)
    (h : x ∈ aggInsert l item) :
    x.productId = item.productId ∨ ∃ y ∈ l, x.productId = y.productId := by
  induction l with
  | nil =>
    simp only [aggInsert, List.mem_singleton] at h
    exact Or.inl (by rw [h])
  | cons e rest ih =>
    unfold aggInsert at h
    by_cases he : (e.productId == item.productId) = true
    · rw [if_pos he] at h
      rcases List.mem_cons.mp h with rfl | hr
      · exact Or.inr ⟨e, List.mem_cons_self _ _, rfl⟩
      · exact Or.inr ⟨x, List.mem_cons_of_mem _ hr, rfl⟩
    · rw [if_neg he] at h
      by_cases hlt : item.productId < e.productId
      · rw [if_pos hlt] at h
        rcases List.mem_cons.mp h with rfl | hr
        · exact Or.inl rfl
        · exact Or.inr ⟨x, hr, rfl⟩
      · rw [if_neg hlt] at h
        rcases List.mem_cons.mp h with rfl | hr
        · exact Or.inr ⟨x, List.mem_cons_self _ _, rfl⟩
        · rcases ih hr with hk | ⟨y, hy, hxy⟩
          · exact Or.inl hk
          · exact Or.inr ⟨y, List.mem_cons_of_mem _ hy, hxy⟩

theorem aggInsert_pairwise (l : List ProdAgg) (item : SaleItem)
    (h : l.Pairwise aggKeyLt) : (aggInsert l item).Pairwise aggKeyLt := by
  induction l with
  | nil => simp [aggInsert]
  | cons e rest ih =>
    obtain ⟨hhead, htail⟩ := List.pairwise_cons.mp h
    unfold aggInsert
    by_cases he : (e.productId == item.productId) = true
    · rw [if_pos he]
      exact List.pairwise_cons.mpr ⟨fun x hx => hhead x hx, htail⟩
    · rw [if_neg he]
      by_cases hlt : item.productId < e.productId
      · rw [if_pos hlt]
        refine List.pairwise_cons.mpr ⟨?_, h⟩
        intro x hx
        rcases List.mem_cons.mp hx with rfl | hr
        · exact hlt
        · exact lt_trans hlt (hhead x hr)
      · rw [if_neg hlt]
        have hgt : e.productId < item.productId := by
          rcases lt_trichotomy e.productId item.productId with hc | hc | hc
          · exact hc
          · exact absurd (by simpa using hc) he
          · exact absurd hc hlt
        refine List.pairwise_cons.mpr ⟨?_, ih htail⟩
        intro x hx
        rcases mem_aggInsert_key rest item hx with hk | ⟨y, hy, hxy⟩
        · show e.productId < x.productId
          rw [hk]
          exact hgt
        · show e.productId < x.productId
          rw [hxy]
          exact hhead y hy

theorem aggQty_eq_zero (l : List ProdAgg) (pid : Int)
    (h : ∀ y ∈ l, y.productId ≠ pid) : aggQty l pid = 0 := by
  unfold aggQty
  rw [List.find?_eq_none.mpr (fun y hy => by simpa using h y hy)]

theorem aggRevenue_eq_zero (l : List ProdAgg) (pid : Int)
    (h : ∀ y ∈ l, y.productId ≠ pid) : aggRevenue l pid = 0 := by
  unfold aggRevenue
  rw [List.find?_eq_none.mpr (fun y hy => by simpa using h y hy)]

theorem aggQty_nil (pid : Int) : aggQty [] pid = 0 := rfl

theorem aggRevenue_nil (pid : Int) : aggRevenue [] pid = 0 := rfl

theorem aggQty_cons (e : ProdAgg) (rest : List ProdAgg) (pid : Int) :
    aggQty (e :: rest) pid =
      if e.productId = pid then e.quantity else aggQty rest pid := by
  unfold aggQty
  by_cases h : e.productId = pid
  · rw [List.find?_cons_of_pos _ (by simpa using h), if_pos h]
  · rw [List.find?_cons_of_neg _ (by simpa using h), if_neg h]

theorem aggRevenue_cons (e : ProdAgg) (rest : List ProdAgg) (pid : Int) :
    aggRevenue (e :: rest) pid =
      if e.productId = pid then e.revenue else aggRevenue rest pid := by
  unfold aggRevenue
  by_cases h : e.productId = pid
  · rw [List.find?_cons_of_pos _ (by simpa using h), if_pos h]
  · rw [List.find?_cons_of_neg _ (by simpa using h), if_neg h]

theorem aggQty_aggInsert (l : List ProdAgg) (item : SaleItem) (pid : Int)
    (hsort : l.Pairwise aggKeyLt) :
    aggQty (aggInsert l item) pid =
      aggQty l pid + (if item.productId = pid then item.quantity else 0) := by
  induction l with
  | nil =>
    show aggQty [⟨item.productId, aggName item, item.quantity,
      item.price * item.quantity⟩] pid = _
    by_cases hik : item.productId = pid <;> simp [aggQty_cons, aggQty_nil, hik]
  | cons e rest ih =>
    obtain ⟨hhead, htail⟩ := List.pairwise_cons.mp hsort
    unfold aggInsert
    by_cases he : (e.productId == item.productId) = true
    · rw [if_pos he]
      have heq : e.productId = item.productId := by simpa using he
      rw [aggQty_cons, aggQty_cons]
      dsimp only
      by_cases hk : e.productId = pid
      · have hik : item.productId = pid := heq ▸ hk
        rw [if_pos hk, if_pos hk, if_pos hik]
      · have hik : item.productId ≠ pid := fun hc => hk (heq.trans hc)
        rw [if_neg hk, if_neg hk, if_neg hik, add_zero]
    · rw [if_neg he]
      by_cases hlt : item.productId < e.productId
      · rw [if_pos hlt]
        rw [aggQty_cons]
        dsimp only
        by_cases hik : item.productId = pid
        · have hz : aggQty (e :: rest) pid = 0 := by
            refine aggQty_eq_zero _ _ ?_
            intro y hy
            rcases List.mem_cons.mp hy with rfl | hr
            · omega
            · have : e.productId < y.productId := hhead y hr
              omega
          rw [if_pos hik, if_pos hik, hz, zero_add]
        · rw [if_neg hik, if_neg hik, add_zero]
      · rw [if_neg hlt]
        rw [aggQty_cons, aggQty_cons]
        by_cases hk : e.productId = pid
        · have hgt : e.productId < item.productId := by
            rcases lt_trichotomy e.productId item.productId with hc | hc | hc
            · exact hc
            · exact absurd (by simpa using hc) he
            · exact absurd hc hlt
          have hik : item.productId ≠ pid := by omega
          rw [if_pos hk, if_pos hk, if_neg hik, add_zero]
        · rw [if_neg hk, if_neg hk]
          exact ih htail

theorem aggRevenue_aggInsert (l : List ProdAgg) (item : SaleItem) (pid : Int)
    (hsort : l.Pairwise aggKeyLt) :
    aggRevenue (aggInsert l item) pid =
      aggRevenue l pid +
        (if item.productId = pid then item.price * item.quantity else 0) := by
  induction l with
  | nil =>
    show aggRevenue [⟨item.productId, aggName item, item.quantity,
      item.price * item.quantity⟩] pid = _
    by_cases hik : item.productId = pid <;> simp [aggRevenue_cons, aggRevenue_nil, hik]
  | cons e rest ih =>
    obtain ⟨hhead, htail⟩ := List.pairwise_cons.mp hsort
    unfold aggInsert
    by_cases he : (e.productId == item.productId) = true
    · rw [if_pos he]
      have heq : e.productId = item.productId := by simpa using he
      rw [aggRevenue_cons, aggRevenue_cons]
      dsimp only
      by_cases hk : e.productId = pid
      · have hik : item.productId = pid := heq ▸ hk
        rw [if_pos hk, if_pos hk, if_pos hik]
      · have hik : item.productId ≠ pid := fun hc => hk (heq.trans hc)
        rw [if_neg hk, if_neg hk, if_neg hik, add_zero]
    · rw [if_neg he]
      by_cases hlt : item.productId < e.productId
      · rw [if_pos hlt]
        rw [aggRevenue_cons]
        dsimp only
        by_cases hik : item.productId = pid
        · have hz : aggRevenue (e :: rest) pid = 0 := by
            refine aggRevenue_eq_zero _ _ ?_
            intro y hy
            rcases List.mem_cons.mp hy with rfl | hr
            · omega
            · have : e.productId < y.productId := hhead y hr
              omega
          rw [if_pos hik, if_pos hik, hz, zero_add]
        · rw [if_neg hik, if_neg hik, add_zero]
      · rw [if_neg hlt]
        rw [aggRevenue_cons, aggRevenue_cons]
        by_cases hk : e.productId = pid
        · have hgt : e.productId < item.productId := by
            rcases lt_trichotomy e.productId item.productId with hc | hc | hc
            · exact hc
            · exact absurd (by simpa using hc) he
            · exact absurd hc hlt
          have hik : item.productId ≠ pid := by omega
          rw [if_pos hk, if_pos hk, if_neg hik, add_zero]
        · rw [if_neg hk, if_neg hk]
          exact ih htail

theorem foldl_aggInsert_pairwise (stream : List SaleItem) (acc : List ProdAgg)
    (h : acc.Pairwise aggKeyLt) : (stream.foldl aggInsert acc).Pairwise aggKeyLt := by
  induction stream generalizing acc with
  | nil => exact h
  | cons it rest ih => exact ih (aggInsert acc it) (aggInsert_pairwise acc it h)

theorem aggQty_foldl (stream : List SaleItem) (acc : List ProdAgg) (pid : Int)
    (hsort : acc.Pairwise aggKeyLt) :
    aggQty (stream.foldl aggInsert acc) pid =
      aggQty acc pid +
        ((stream.filter (fun it => it.productId == pid)).map (fun it => it.quantity)).sum := by
  induction stream generalizing acc with
  | nil => simp
  | cons it rest ih =>
    show aggQty (rest.foldl aggInsert (aggInsert acc it)) pid = _
    rw [ih (aggInsert acc it) (aggInsert_pairwise acc it hsort),
      aggQty_aggInsert acc it pid hsort]
    by_cases hk : it.productId = pid
    · rw [List.filter_cons_of_pos (by simpa using hk)]
      simp [hk, add_assoc, add_comm]
      ring
    · rw [List.filter_cons_of_neg (by simpa using hk)]
      simp [hk]

theorem aggRevenue_foldl (stream : List SaleItem) (acc : List ProdAgg) (pid : Int)
    (hsort : acc.Pairwise aggKeyLt) :
    aggRevenue (stream.foldl aggInsert acc) pid =
      aggRevenue acc pid +
        ((stream.filter (fun it => it.productId == pid)).map
          (fun it => it.price * it.quantity)).sum := by
  induction stream generalizing acc with
  | nil => simp
  | cons it rest ih =>
    show aggRevenue (rest.foldl aggInsert (aggInsert acc it)) pid = _
    rw [ih (aggInsert acc it) (aggInsert_pairwise acc it hsort),
      aggRevenue_aggInsert acc it pid hsort]
    by_cases hk : it.productId = pid
    · rw [List.filter_cons_of_pos (by simpa using hk)]
      simp [hk, add_assoc, add_comm]
      ring
    · rw [List.filter_cons_of_neg (by simpa using hk)]
      simp [hk]

theorem productSales_eq_foldl (salesL : List Sale) (acc : List ProdAgg) :
    salesL.foldl (fun acc s => s.items.foldl aggInsert acc) acc =
      (saleItemsOf salesL).foldl aggInsert acc := by
  induction salesL generalizing acc with
  | nil => rfl
  | cons s rest ih =>
    show rest.foldl _ (s.items.foldl aggInsert acc) = _
    rw [ih]
    unfold saleItemsOf
    simp [List.foldl_append]

theorem find?_of_mem_pairwise {l : List ProdAgg} (hsort : l.Pairwise aggKeyLt)
    {e : ProdAgg} (he : e ∈ l) :
    l.find? (fun x => x.productId == e.productId) = some e := by
  induction l with
  | nil => cases he
  | cons x rest ih =>
    obtain ⟨hhead, htail⟩ := List.pairwise_cons.mp hsort
    rcases List.mem_cons.mp he with rfl | hr
    · exact List.find?_cons_of_pos _ (by simp)
    · have hne : x.productId ≠ e.productId := ne_of_lt (hhead e hr)
      rw [List.find?_cons_of_neg _ (by simpa using hne)]
      exact ih htail hr

/-- The stable descending-by-quantity sort of an ascending-by-key list is
ordered by quantity descending with ties by ascending key. -/
theorem orderedInsert_aggOrder (a : ProdAgg) (l : List ProdAgg)
    (hl : l.Pairwise aggOrder) (ha : ∀ b ∈ l, a.productId < b.productId) :
    (l.orderedInsert qtyDesc a).Pairwise aggOrder := by
  induction l with
  | nil => simp
  | cons b rest ih =>
    obtain ⟨hhead, htail⟩ := List.pairwise_cons.mp hl
    have hqle : ∀ x ∈ rest, x.quantity ≤ b.quantity := by
      intro x hx
      rcases hhead x hx with hlt | ⟨heq, _⟩
      · exact le_of_lt hlt
      · exact le_of_eq heq.symm
    show (List.orderedInsert qtyDesc a (b :: rest)).Pairwise aggOrder
    rw [List.orderedInsert]
    split
    · rename_i hab
      have hab' : b.quantity ≤ a.quantity := hab
      refine List.pairwise_cons.mpr ⟨?_, hl⟩
      intro x hx
      rcases List.mem_cons.mp hx with rfl | hr
      · rcases lt_or_eq_of_le hab' with hlt | heq
        · exact Or.inl hlt
        · exact Or.inr ⟨heq.symm, ha x (List.mem_cons_self _ _)⟩
      · have hxq : x.quantity ≤ a.quantity := le_trans (hqle x hr) hab'
        rcases lt_or_eq_of_le hxq with hlt | heq
        · exact Or.inl hlt
        · exact Or.inr ⟨heq.symm, ha x (List.mem_cons_of_mem _ hr)⟩
    · rename_i hab
      have hab' : a.quantity < b.quantity := by
        have := lt_of_not_le (fun hc => hab hc)
        exact this
      refine List.pairwise_cons.mpr ⟨?_, ih htail (fun x hx => ha x (List.mem_cons_of_mem _ hx))⟩
      intro x hx
      rcases (List.mem_orderedInsert qtyDesc).mp hx with rfl | hr
      · exact Or.inl hab'
      · exact hhead x hr

theorem insertionSort_qtyDesc_pairwise (l : List ProdAgg) (h : l.Pairwise aggKeyLt) :
    (l.insertionSort qtyDesc).Pairwise aggOrder := by
  induction l with
  | nil => simp
  | cons a rest ih =>
    obtain ⟨hhead, htail⟩ := List.pairwise_cons.mp h
    show (List.orderedInsert qtyDesc a (rest.insertionSort qtyDesc)).Pairwise aggOrder
    refine orderedInsert_aggOrder a _ (ih htail) ?_
    intro b hb
    exact hhead b ((List.perm_insertionSort qtyDesc rest).subset hb)

/-- Counterexample to claim C8 as stated: one sale whose items meet product 5
before product 3, one unit each (a quantity tie).  Encounter order is `[5, 3]`,
but `topProducts` lists `[3, 5]`: the `productSales` object is keyed by the
integer-like `productId`, and JavaScript enumerates such keys in ascending
numeric order before the stable sort runs, so ties are broken by ascending
product id, not by encounter order. -/
theorem claim_C8_counterexample :
    (topProducts [saleC8] 1 none none).map (fun e => e.productId) = [3, 5] ∧
    specEncounterPids [saleC8] = [5, 3] ∧
    ∀ e ∈ topProducts [saleC8] 1 none none, e.quantity = 1 := by
  exact ⟨by decide, by decide, by decide⟩

/-- Claim C8 (amended): `topProducts` has at most 10 entries; each entry's
quantity and revenue are the per-product sums over all line items of the
filtered completed sales; entries are sorted by strictly descending quantity
with quantity ties broken by ASCENDING product id (the enumeration order of
the integer-keyed `productSales` object), not by encounter order. -/
theorem claim_C8_top_products :
    ∀ (salesL : List Sale) (tid : Int) (sd ed : Option String),
      (topProducts salesL tid sd ed).length ≤ 10 ∧
      (∀ e ∈ topProducts salesL tid sd ed,
        e.quantity = specQty (statsFiltered salesL tid sd ed) e.productId ∧
        e.revenue = specRevenue (statsFiltered salesL tid sd ed) e.productId) ∧
      (topProducts salesL tid sd ed).Pairwise aggOrder := by
  intro salesL tid sd ed
  have hsorted : (productSales (statsFiltered salesL tid sd ed)).Pairwise aggKeyLt := by
    unfold productSales
    rw [productSales_eq_foldl]
    exact foldl_aggInsert_pairwise _ [] List.Pairwise.nil
  refine ⟨List.length_take_le _ _, ?_, ?_⟩
  · intro e he
    have hmem : e ∈ productSales (statsFiltered salesL tid sd ed) :=
      (List.perm_insertionSort qtyDesc _).subset (List.mem_of_mem_take he)
    have hfind := find?_of_mem_pairwise hsorted hmem
    constructor
    · have h1 : aggQty (productSales (statsFiltered salesL tid sd ed)) e.productId =
          e.quantity := by
        unfold aggQty
        rw [hfind]
      rw [← h1]
      unfold productSales
      rw [productSales_eq_foldl, aggQty_foldl _ [] _ List.Pairwise.nil, aggQty_nil,
        zero_add]
      rfl
    · have h1 : aggRevenue (productSales (statsFiltered salesL tid sd ed)) e.productId =
          e.revenue := by
        unfold aggRevenue
        rw [hfind]
      rw [← h1]
      unfold productSales
      rw [productSales_eq_foldl, aggRevenue_foldl _ [] _ List.Pairwise.nil, aggRevenue_nil,
        zero_add]
      rfl
  · exact List.Pairwise.sublist (List.take_sublist _ _)
      (insertionSort_qtyDesc_pairwise _ hsorted)

/-- Witness for C8 (amended): in the tied example, the entry for product 3
carries quantity 1, the per-product sum over the sale's line items. -/
theorem claim_C8_top_products_witness :
    (⟨3, "y", 1, 2⟩ : ProdAgg).quantity =
      specQty (statsFiltered [saleC8] 1 none none) (⟨3, "y", 1, 2⟩ : ProdAgg).productId :=
  ((claim_C8_top_products [saleC8] 1 none none).2.1 ⟨3, "y", 1, 2⟩ (by decide)).1

/-- The dashboard's two-step filter equals the one-shot spec filter. -/
theorem todayFilter_eq (salesL : List Sale) (tid : Int) (today : String) :
    (salesL.filter (fun s => s.tenantId == tid && s.status == "completed")).filter
      (fun s => startsWithStr s.createdAt today) = specTodayCompleted salesL tid today := by
  rw [List.filter_filter]
  unfold specTodayCompleted
  apply List.filter_congr
  intro s _
  cases h1 : s.tenantId == tid <;> cases h2 : s.status == "completed" <;>
    cases h3 : startsWithStr s.createdAt today <;> simp [h1, h2, h3]

/-- Counterexample to claim C9 as stated: with a single completed sale dated
2020-01-01 and the current date 2026-10-11, the current date's sale set is
empty, yet `recentSales` contains that old sale's projection — `recentSales`
is built from the tenant's completed sales of every date, not the current
date's. -/
theorem claim_C9_counterexample :
    specTodayCompleted [saleOld] 1 "2026-10-11" = [] ∧
    (dashboardOverview [saleOld] [] 1 "2026-10-11").totalSales = 0 ∧
    (dashboardOverview [saleOld] [] 1 "2026-10-11").recentSales = [saleProj saleOld] := by
  exact ⟨by decide, by decide, by decide⟩

/-- Claim C9 (amended): `totalSales`, `totalRevenue` (and the fields derived
from them) are scoped to the current date's completed sales of the tenant, but
`recentSales` is the first 10 of ALL the tenant's completed sales — any date —
sorted by creation time descending and projected to
`{id, total, paymentMethod, createdAt, item count}`. -/
theorem claim_C9_dashboard :
    ∀ (salesL : List Sale) (psL : List Product) (tid : Int) (today : String),
      (dashboardOverview salesL psL tid today).totalSales =
        (specTodayCompleted salesL tid today).length ∧
      (dashboardOverview salesL psL tid today).totalRevenue =
        ((specTodayCompleted salesL tid today).map (fun s => s.total)).sum ∧
      (∃ l : List Sale, l.Perm (specTenantCompleted salesL tid) ∧
        l.Pairwise recentDesc ∧
        (dashboardOverview salesL psL tid today).recentSales =
          (l.take 10).map saleProj) ∧
      (dashboardOverview salesL psL tid today).recentSales.length =
        min 10 (specTenantCompleted salesL tid).length ∧
      (∀ r ∈ (dashboardOverview salesL psL tid today).recentSales,
        ∃ s, s ∈ salesL ∧ s.tenantId = tid ∧ s.status = "completed" ∧ r = saleProj s) := by
  intro salesL psL tid today
  refine ⟨?_, ?_, ?_, ?_, fun r h => recentSales_provenance salesL psL tid today h⟩
  · unfold dashboardOverview
    dsimp only
    rw [todayFilter_eq]
  · unfold dashboardOverview
    dsimp only
    rw [todayFilter_eq, revenueOf_eq_sum]
  · refine ⟨(specTenantCompleted salesL tid).insertionSort recentDesc,
      List.perm_insertionSort _ _, List.sorted_insertionSort _ _, ?_⟩
    unfold dashboardOverview specTenantCompleted
    dsimp only
  · unfold dashboardOverview specTenantCompleted
    dsimp only
    simp [List.length_take, List.length_insertionSort]

/-- Witness for C9 (amended): for the 2020 sale viewed on 2026-10-11, the
current date's counters are over an empty set yet `recentSales` has length
`min 10 1 = 1`. -/
theorem claim_C9_dashboard_witness :
    (dashboardOverview [saleOld] [] 1 "2026-10-11").totalSales =
      (specTodayCompleted [saleOld] 1 "2026-10-11").length ∧
    (dashboardOverview [saleOld] [] 1 "2026-10-11").recentSales.length =
      min 10 (specTenantCompleted [saleOld] 1).length :=
  ⟨(claim_C9_dashboard [saleOld] [] 1 "2026-10-11").1,
   (claim_C9_dashboard [saleOld] [] 1 "2026-10-11").2.2.2.1⟩

end PDV
